import Mathlib

/-!
Verification development for the askai retrieval-and-answer pipeline.

The definitions below are a shallow embedding of the Python sources:
  src/app/api/chat.py      (ChatService.chat)
  src/app/api/search.py    (SearchService.search_by_keywords)
  src/app/rag/gemini.py    (extract_search_keywords, generate_answer,
                            generate_fallback_answer, history role mapping)
  src/app/rag/retriever.py (Retriever.search_similar, treated as an oracle)

External collaborators (the generative model, the embedding model and the
vector index) are modelled as oracles packaged in a Collab record: the
pipeline only ever inspects the values they return, never how they were
produced.  Numeric scores are rationals: SQL match scores are small
integers and the relevance values are cosine similarities compared
against the literal 0.55, so no floating-point-specific behaviour is
involved in any claim.  Python dicts carrying optional keys become
structures with Option fields.
-/

/-- The ASCII apostrophe character, kept out of string literals. -/
def apos : String := String.singleton (Char.ofNat 39)

/-- The markdown code-fence marker, three backticks (written via escapes). -/
def fence : String := "\x60\x60\x60"

/-- Python exceptions that the embedded code can raise and does not catch. -/
inductive PyErr where
  | indexError
deriving DecidableEq, Repr

/-- One conversation-history entry, as the dicts passed to ChatService.chat:
a role string and a content string.  A missing or None history is modelled
as the empty list, which Python treats identically (both are falsy in
the has_history test of chat.py line 66). -/
structure HMsg where
  role : String
  content : String
deriving DecidableEq, Repr

/-- One row of the questions table, the corpus searched by
SearchService.search_by_keywords (search.py).  view_count may be NULL. -/
structure QRow where
  id : Int
  question_title : String
  question_text : String
  answer : String
  category : String
  url : String
  view_count : Option Int
  is_fully_scraped : Bool
deriving DecidableEq, Repr

/-- One row returned by Retriever.search_similar (retriever.py): the
selected columns plus the cosine-similarity relevance. -/
structure ERow where
  id : Int
  title : String
  question : String
  answer : String
  category : String
  url : String
  relevance : ℚ
deriving DecidableEq, Repr

/-- A candidate dict as it circulates inside ChatService.chat.  Keyword
search rows carry a match_score and no relevance key; embedding rows carry
a relevance and, once merged at chat.py line 127, also a match_score.
Absent dict keys are Option none.  view_count is none when the key is
absent (embedding rows) or the SQL value was NULL. -/
structure Cand where
  id : Int
  title : String
  question : String
  answer : String
  category : String
  url : String
  view_count : Option Int
  match_score : Option ℚ
  relevance : Option ℚ
deriving DecidableEq, Repr

/-- One entry of the sources list of a chat response (chat.py lines 173-183). -/
structure Source where
  id : Int
  title : String
  relevance : ℚ
deriving DecidableEq, Repr

/-- The dict returned by ChatService.chat: answer, sources, source_type and
the optional disclaimer (absent key modelled as none). -/
structure ChatResult where
  answer : String
  sources : List Source
  source_type : String
  disclaimer : Option String
deriving DecidableEq, Repr

/-- Roles of the google-genai Content objects built from history. -/
inductive GRole where
  | user
  | model
deriving DecidableEq, Repr

/-- A google-genai Content: a role plus its single text part. -/
structure GContent where
  role : GRole
  text : String
deriving DecidableEq, Repr

/-- The dict returned by extract_search_keywords (gemini.py lines 152-164). -/
structure KwResult where
  primary_keywords : List String
  related_keywords : List String
  rewritten_query : String
deriving DecidableEq, Repr

/-- The outcome of json.loads on the extraction response when it yields a
JSON object: each of the three keys gemini.py reads may be present or
absent (result.get with a default).  A jsonParse oracle returning none
models json.JSONDecodeError. -/
structure JsonDict where
  primary_keywords : Option (List String)
  related_keywords : Option (List String)
  rewritten_query : Option String
deriving DecidableEq, Repr

/-- pat occurs as a contiguous run inside the character list. -/
def hasInfix (pat : List Char) : List Char → Bool
  | [] => pat.isEmpty
  | c :: t => pat.isPrefixOf (c :: t) || hasInfix pat t

/-- Decidable substring test: Python in-operator on strings. -/
def containsSubstr (hay pat : String) : Bool :=
  hasInfix pat.data hay.data

/-- Python str.lower, written over the character list so that it reduces
inside the kernel. -/
def lowerStr (s : String) : String :=
  String.mk (s.data.map Char.toLower)

/-- Case-insensitive containment, modelling SQL ILIKE with a pattern that
wraps the keyword in percent wildcards (search.py line 99).  A keyword
containing a literal percent or underscore would act as a wildcard in SQL;
no claim depends on such keywords. -/
def containsCI (hay pat : String) : Bool :=
  containsSubstr (lowerStr hay) (lowerStr pat)

/-- The fixed not-found phrases of chat.py lines 153-158. -/
def notFoundPhrases : List String :=
  ["topilmadi", "mavjud emas",
   "ma" ++ apos ++ "lumot yo" ++ apos ++ "q",
   "javob yo" ++ apos ++ "q"]

/-- chat.py lines 159-160: lowercase the generated answer and test whether
any not-found phrase occurs in it as a substring. -/
def sourcesInsufficient (answer : String) : Bool :=
  notFoundPhrases.any (fun p => containsSubstr (lowerStr answer) p)

/-- The fixed disclaimer string of generate_fallback_answer
(gemini.py line 421). -/
def standardDisclaimer : String :=
  "Bu javob sun" ++ apos ++ "iy intellekt tomonidan berildi. Aniq fatvo uchun mahalliy imom yoki O" ++ apos ++ "zbekiston Musulmonlar Idorasiga murojaat qiling."

/-- Python str.split with separator newline and maxsplit 1, index 1: the
part after the first newline, or none when the string has no newline (in
which case the Python indexing raises IndexError). -/
def dropToNewline : List Char → Option (List Char)
  | [] => none
  | c :: cs => if c = Char.ofNat 10 then some cs else dropToNewline cs

/-- Python str.rsplit with maxsplit 1, index 0: the part of the string
before the last occurrence of the separator, or none when the separator
does not occur. -/
def lastSplitBefore (sep : List Char) : List Char → Option (List Char)
  | [] => none
  | c :: cs =>
    match lastSplitBefore sep cs with
    | some p => some (c :: p)
    | none => if sep.isPrefixOf (c :: cs) then some [] else none

/-- Python str.strip on the character list: drop whitespace from both
ends.  Python also strips a few extra unicode space characters; no claim
involves those. -/
def pyStrip (s : String) : List Char :=
  (((s.data.dropWhile Char.isWhitespace).reverse.dropWhile Char.isWhitespace)).reverse

/-- The response preprocessing of extract_search_keywords (gemini.py lines
146-150): strip whitespace, and when the text starts with a code fence,
drop through the first newline and cut at the last fence.  Mirrors the
Python exactly, including the uncaught IndexError when a fenced text
contains no newline (split with maxsplit 1 then index 1 on a one-element
list). -/
def preprocess_response (s : String) : Except PyErr String :=
  let t := pyStrip s
  if fence.data.isPrefixOf t then
    match dropToNewline t with
    | none => .error .indexError
    | some rest => .ok (String.mk ((lastSplitBefore fence.data rest).getD rest))
  else .ok (String.mk t)

/-- extract_search_keywords (gemini.py lines 144-164) applied to the raw
model response text.  jsonParse models json.loads restricted to the
object shape the code reads: none is a JSONDecodeError, which the except
clause turns into the fallback dict.  The IndexError from the fence
preprocessing is not caught by the except clause (it only lists
JSONDecodeError and KeyError) and so propagates. -/
def extract_search_keywords (jsonParse : String → Option JsonDict)
    (query : String) (respText : String) : Except PyErr KwResult :=
  match preprocess_response respText with
  | .error e => .error e
  | .ok txt =>
    match jsonParse txt with
    | some d =>
      .ok { primary_keywords := d.primary_keywords.getD []
            related_keywords := d.related_keywords.getD []
            rewritten_query := d.rewritten_query.getD query }
    | none =>
      .ok { primary_keywords := [query]
            related_keywords := []
            rewritten_query := query }

/-- Insertion step of a stable sort: x is placed before the first element
y with r x y, so elements equal under r keep their input order, matching
the stability of both the Python sorted builtin and, for the SQL model,
one valid realisation of an ORDER BY that leaves ties unspecified. -/
def insertOrd {α : Type} (r : α → α → Bool) (x : α) : List α → List α
  | [] => [x]
  | y :: ys => if r x y then x :: y :: ys else y :: insertOrd r x ys

/-- Stable insertion sort by the boolean precedence relation r. -/
def sortOrd {α : Type} (r : α → α → Bool) (l : List α) : List α :=
  l.foldr (insertOrd r) []

/-- The per-row match score of search_by_keywords (search.py lines
103-111): for each keyword, 2 points when the title matches ILIKE and 1
point when the answer matches. -/
def kwScore (keywords : List String) (row : QRow) : ℚ :=
  (keywords.map (fun kw =>
    (if containsCI row.question_title kw then (2 : ℚ) else 0) +
    (if containsCI row.answer kw then (1 : ℚ) else 0))).sum

/-- The WHERE clause of search_by_keywords: fully scraped and at least one
keyword matches title or answer. -/
def rowMatches (keywords : List String) (row : QRow) : Bool :=
  keywords.any (fun kw =>
    containsCI row.question_title kw || containsCI row.answer kw)

/-- The SELECT column list of search_by_keywords as a candidate dict. -/
def rowToCand (keywords : List String) (row : QRow) : Cand :=
  { id := row.id
    title := row.question_title
    question := row.question_text
    answer := row.answer
    category := row.category
    url := row.url
    view_count := row.view_count
    match_score := some (kwScore keywords row)
    relevance := none }

/-- view_count comparison for ORDER BY view_count DESC NULLS LAST: a may
precede b when its view_count ranks at least as high, with NULL ranking
below every value. -/
def vcBefore : Option Int → Option Int → Bool
  | some x, some y => decide (y ≤ x)
  | some _, none => true
  | none, some _ => false
  | none, none => true

/-- match_score of a candidate dict, with 0 for an absent key. -/
def msKey (c : Cand) : ℚ := c.match_score.getD 0

/-- Row precedence of the ORDER BY of search_by_keywords (search.py line
142): match_score DESC, then view_count DESC NULLS LAST.  The SQL names no
further key, so full ties are left in input order by the stable sort. -/
def kwOrd (a b : Cand) : Bool :=
  decide (msKey b < msKey a) || (decide (msKey a = msKey b) && vcBefore a.view_count b.view_count)

/-- SearchService.search_by_keywords (search.py lines 78-150) over an
explicit corpus: empty keyword list short-circuits to no results;
otherwise filter by the WHERE clause, compute match scores, order by
match_score DESC then view_count DESC NULLS LAST, and apply LIMIT. -/
def search_by_keywords (corpus : List QRow) (keywords : List String)
    (limit : Nat) : List Cand :=
  if keywords.isEmpty then []
  else
    (sortOrd kwOrd
      ((corpus.filter (fun row => row.is_fully_scraped && rowMatches keywords row)).map
        (rowToCand keywords))).take limit

/-- chat.py line 127: an embedding row admitted to the merge gets a
match_score equal to its relevance times 3, alongside its relevance. -/
def mkCand (r : ERow) : Cand :=
  { id := r.id
    title := r.title
    question := r.question
    answer := r.answer
    category := r.category
    url := r.url
    view_count := none
    match_score := some (r.relevance * 3)
    relevance := some r.relevance }

/-- The merge loop of chat.py lines 120-128: embedding results whose id is
not among the keyword-result ids and whose relevance is at least 0.55 are
appended, after receiving a match_score, to the keyword results.  The id
set is computed once before the loop, exactly as in the source. -/
def mergeResults (kwRes : List Cand) (embRes : List ERow) : List Cand :=
  let keyword_ids := kwRes.map Cand.id
  kwRes ++ (embRes.filter (fun r =>
    !keyword_ids.contains r.id && decide (r.relevance ≥ (0.55 : ℚ)))).map mkCand

/-- The sort key of chat.py line 143: match_score (default 0) plus
relevance (default 0) times 3. -/
def codeKey (c : Cand) : ℚ := c.match_score.getD 0 + c.relevance.getD 0 * 3

/-- Candidate precedence for the final sort of chat.py lines 141-145
(descending by codeKey, stable). -/
def chatOrd (a b : Cand) : Bool := decide (codeKey b ≤ codeKey a)

/-- The role mapping applied to every history entry in gemini.py (lines
263, 336 and 403): the exact string user maps to the user role and every
other string maps to the model role, with no validation. -/
def buildHistoryContents (history : List HMsg) : List GContent :=
  history.map (fun m => { role := if m.role = "user" then GRole.user else GRole.model
                          text := m.content })

/-- The numbered context block of generate_answer (gemini.py lines
298-304). -/
def context_block (context : List Cand) : String :=
  String.intercalate "\n---\n"
    (context.enum.map (fun p =>
      "[Manba " ++ toString (p.1 + 1) ++ "]\n" ++ "Savol: " ++ p.2.title ++
        "\n" ++ "Javob: " ++ p.2.answer ++ "\n"))

/-- The user message of generate_answer (gemini.py lines 325-328). -/
def user_message_str (query : String) (context : List Cand) : String :=
  "Manbalar:\n" ++ context_block context ++ "\n\nFoydalanuvchi savoli: " ++ query

/-- The contents list generate_answer sends to the model (gemini.py lines
330-342): the mapped history followed by the context-bearing user turn. -/
def generate_answer_contents (query : String) (context : List Cand)
    (history : List HMsg) : List GContent :=
  buildHistoryContents history ++ [{ role := GRole.user, text := user_message_str query context }]

/-- The contents list generate_fallback_answer sends to the model
(gemini.py lines 398-410): the mapped history followed by the user turn. -/
def generate_fallback_contents (query : String) (history : List HMsg) : List GContent :=
  buildHistoryContents history ++ [{ role := GRole.user, text := query }]

/-- Python round to two decimals on the display relevance (chat.py lines
177-180), modelled with the rounding function on rationals.  Python
rounds exact halves to even on floats; no claim depends on half cases. -/
def round2 (q : ℚ) : ℚ := ((round (q * 100) : ℤ) : ℚ) / 100

/-- The sources list of chat.py lines 173-183: id, title and a display
relevance that uses the relevance key when present and match_score over 6
otherwise. -/
def mkSources (l : List Cand) : List Source :=
  l.map (fun item =>
    { id := item.id
      title := item.title
      relevance := round2 (item.relevance.getD (item.match_score.getD 0 / 6)) })

/-- The external collaborators of one chat invocation.  classify is the
boolean result of classify_message; jsonParse and extractText determine
extract_search_keywords; convAnswer, fallbackAnswer and groundedAnswer
are the texts the generative model returns on the three kinds of call;
embedResults is what Retriever.search_similar returns for the query
embedding.  They are oracles: chat only inspects these values. -/
structure Collab where
  classify : Bool
  jsonParse : String → Option JsonDict
  extractText : String
  convAnswer : String
  fallbackAnswer : String
  groundedAnswer : String
  embedResults : List ERow

/-- Observable events of one chat invocation: which collaborators were
called, the keyword list given to keyword search, the keyword results,
the candidate list passed to grounded composition, and the contents lists
sent to the generative model. -/
structure Trace where
  kwCalled : Bool
  embedCalled : Bool
  vecCalled : Bool
  keywordsUsed : List String
  kwResults : List Cand
  composed : List Cand
  groundedContents : Option (List GContent)
  fallbackContents : Option (List GContent)
deriving DecidableEq, Repr

/-- The trace of an invocation that called no collaborator. -/
def emptyTrace : Trace :=
  { kwCalled := false, embedCalled := false, vecCalled := false
    keywordsUsed := [], kwResults := [], composed := []
    groundedContents := none, fallbackContents := none }

/-- The ai-knowledge fallback response dict (chat.py lines 82-87, 165-170
and 195-200): fallback answer, no sources, source_type ai_knowledge and
the standard disclaimer. -/
def fallbackChatResult (ans : String) : ChatResult :=
  { answer := ans, sources := [], source_type := "ai_knowledge"
    disclaimer := some standardDisclaimer }

/-- chat.py lines 94-97: the keyword list handed to keyword search is the
concatenation of the primary and related keyword lists. -/
def allKeywordsOf (kwr : KwResult) : List String :=
  kwr.primary_keywords ++ kwr.related_keywords

/-- chat.py lines 100-105: keyword search runs with limit 10 only when the
keyword list is non-empty; otherwise keyword_results stays empty. -/
def keywordResultsOf (corpus : List QRow) (kwr : KwResult) : List Cand :=
  if (allKeywordsOf kwr).isEmpty then []
  else search_by_keywords corpus (allKeywordsOf kwr) 10

/-- chat.py line 111: the embedding fallback triggers exactly when keyword
search produced fewer than 3 candidates. -/
def doEmbedOf (corpus : List QRow) (kwr : KwResult) : Bool :=
  decide ((keywordResultsOf corpus kwr).length < 3)

/-- chat.py lines 110-129: the candidate list after the optional embedding
augmentation. -/
def mergedOf (C : Collab) (corpus : List QRow) (kwr : KwResult) : List Cand :=
  if doEmbedOf corpus kwr then
    mergeResults (keywordResultsOf corpus kwr) C.embedResults
  else keywordResultsOf corpus kwr

/-- chat.py lines 141-145: the merged candidates sorted descending by the
match_score-plus-relevance-times-3 key and truncated to the top 5.  This
is the list handed to generate_answer. -/
def sortedResultsOf (C : Collab) (corpus : List QRow) (kwr : KwResult) : List Cand :=
  (sortOrd chatOrd (mergedOf C corpus kwr)).take 5

/-- The trace fields common to every branch of the question path. -/
def baseTraceOf (corpus : List QRow) (kwr : KwResult) : Trace :=
  { kwCalled := !(allKeywordsOf kwr).isEmpty
    embedCalled := doEmbedOf corpus kwr
    vecCalled := doEmbedOf corpus kwr
    keywordsUsed := allKeywordsOf kwr
    kwResults := keywordResultsOf corpus kwr
    composed := [], groundedContents := none, fallbackContents := none }

/-- ChatService.chat (chat.py lines 47-200).  Python local variables
(all_keywords, keyword_results, sorted_results) are the named defs above;
the value is the response dict paired with the call trace.  The only
uncaught exception path is the IndexError of extract_search_keywords. -/
def chat (C : Collab) (corpus : List QRow) (message : String)
    (history : List HMsg) : Except PyErr (ChatResult × Trace) :=
  if !C.classify && history.isEmpty then
    .ok ({ answer := C.convAnswer, sources := [], source_type := "conversational"
           disclaimer := none }, emptyTrace)
  else if !C.classify && !history.isEmpty then
    .ok (fallbackChatResult C.fallbackAnswer,
         { emptyTrace with
             fallbackContents := some (generate_fallback_contents message history) })
  else
    match extract_search_keywords C.jsonParse message C.extractText with
    | .error e => .error e
    | .ok kwr =>
      if (mergedOf C corpus kwr).isEmpty then
        .ok (fallbackChatResult C.fallbackAnswer,
             { baseTraceOf corpus kwr with
                 fallbackContents := some (generate_fallback_contents message history) })
      else if sourcesInsufficient C.groundedAnswer then
        .ok (fallbackChatResult C.fallbackAnswer,
             { baseTraceOf corpus kwr with
                 composed := sortedResultsOf C corpus kwr
                 groundedContents :=
                   some (generate_answer_contents message (sortedResultsOf C corpus kwr) history)
                 fallbackContents := some (generate_fallback_contents message history) })
      else
        .ok ({ answer := C.groundedAnswer
               sources := mkSources (sortedResultsOf C corpus kwr)
               source_type := "database", disclaimer := none },
             { baseTraceOf corpus kwr with
                 composed := sortedResultsOf C corpus kwr
                 groundedContents :=
                   some (generate_answer_contents message (sortedResultsOf C corpus kwr) history) })

/-! Generic facts about the stable insertion sort. -/

theorem mem_insertOrd {α : Type} (r : α → α → Bool) (x : α) (l : List α) (z : α) :
    z ∈ insertOrd r x l ↔ z = x ∨ z ∈ l := by
  induction l with
  | nil => simp [insertOrd]
  | cons y ys ih =>
    by_cases h : r x y
    · simp [insertOrd, h]
    · simp [insertOrd, h, ih]
      tauto

theorem insertOrd_perm {α : Type} (r : α → α → Bool) (x : α) (l : List α) :
    List.Perm (insertOrd r x l) (x :: l) := by
  induction l with
  | nil => simp [insertOrd]
  | cons y ys ih =>
    by_cases h : r x y
    · simp [insertOrd, h]
    · simp only [insertOrd, h, if_neg, Bool.false_eq_true, ite_false]
      exact (ih.cons y).trans (List.Perm.swap x y ys)

theorem sortOrd_perm {α : Type} (r : α → α → Bool) (l : List α) :
    List.Perm (sortOrd r l) l := by
  induction l with
  | nil => exact List.Perm.refl _
  | cons x xs ih =>
    exact (insertOrd_perm r x (sortOrd r xs)).trans (ih.cons x)

theorem pairwise_insertOrd {α : Type} (r : α → α → Bool)
    (htot : ∀ a b, r a b = true ∨ r b a = true)
    (htr : ∀ a b c, r a b = true → r b c = true → r a c = true)
    (x : α) (l : List α) (h : l.Pairwise (fun a b => r a b = true)) :
    (insertOrd r x l).Pairwise (fun a b => r a b = true) := by
  induction l with
  | nil => simp [insertOrd]
  | cons y ys ih =>
    rcases List.pairwise_cons.mp h with ⟨hy, hys⟩
    by_cases hxy : r x y = true
    · have hp : (x :: y :: ys).Pairwise (fun a b => r a b = true) := by
        refine List.pairwise_cons.mpr ⟨?_, h⟩
        intro z hz
        rcases List.mem_cons.mp hz with rfl | hz
        · exact hxy
        · exact htr x y z hxy (hy z hz)
      simpa [insertOrd, hxy] using hp
    · have hyx : r y x = true := (htot x y).resolve_left hxy
      have hp : (y :: insertOrd r x ys).Pairwise (fun a b => r a b = true) := by
        refine List.pairwise_cons.mpr ⟨?_, ih hys⟩
        intro z hz
        rcases (mem_insertOrd r x ys z).mp hz with rfl | hz
        · exact hyx
        · exact hy z hz
      simpa [insertOrd, hxy] using hp

theorem pairwise_sortOrd {α : Type} (r : α → α → Bool)
    (htot : ∀ a b, r a b = true ∨ r b a = true)
    (htr : ∀ a b c, r a b = true → r b c = true → r a c = true)
    (l : List α) : (sortOrd r l).Pairwise (fun a b => r a b = true) := by
  induction l with
  | nil => simp [sortOrd]
  | cons x xs ih => exact pairwise_insertOrd r htot htr x (sortOrd r xs) ih

/-! The two precedence relations used by the pipeline are total and
transitive, so the sorted outputs are Pairwise-ordered. -/

theorem chatOrd_total (a b : Cand) : chatOrd a b = true ∨ chatOrd b a = true := by
  unfold chatOrd
  rcases le_total (codeKey b) (codeKey a) with h | h
  · exact Or.inl (decide_eq_true h)
  · exact Or.inr (decide_eq_true h)

theorem chatOrd_trans (a b c : Cand) :
    chatOrd a b = true → chatOrd b c = true → chatOrd a c = true := by
  unfold chatOrd
  intro h1 h2
  exact decide_eq_true (le_trans (of_decide_eq_true h2) (of_decide_eq_true h1))

theorem vcBefore_total (a b : Option Int) :
    vcBefore a b = true ∨ vcBefore b a = true := by
  rcases a with _ | x <;> rcases b with _ | y <;> simp [vcBefore]
  exact le_total y x

theorem vcBefore_trans (a b c : Option Int) :
    vcBefore a b = true → vcBefore b c = true → vcBefore a c = true := by
  rcases a with _ | x <;> rcases b with _ | y <;> rcases c with _ | z <;>
    simp [vcBefore]
  exact fun h1 h2 => le_trans h2 h1

theorem kwOrd_total (a b : Cand) : kwOrd a b = true ∨ kwOrd b a = true := by
  unfold kwOrd
  rcases lt_trichotomy (msKey a) (msKey b) with h | h | h
  · right
    rw [Bool.or_eq_true]
    exact Or.inl (decide_eq_true h)
  · rcases vcBefore_total a.view_count b.view_count with hv | hv
    · left
      rw [Bool.or_eq_true, Bool.and_eq_true]
      exact Or.inr ⟨decide_eq_true h, hv⟩
    · right
      rw [Bool.or_eq_true, Bool.and_eq_true]
      exact Or.inr ⟨decide_eq_true h.symm, hv⟩
  · left
    rw [Bool.or_eq_true]
    exact Or.inl (decide_eq_true h)

theorem kwOrd_trans (a b c : Cand) :
    kwOrd a b = true → kwOrd b c = true → kwOrd a c = true := by
  unfold kwOrd
  intro h1 h2
  rw [Bool.or_eq_true] at h1 h2 ⊢
  rcases h1 with h1 | h1 <;> rcases h2 with h2 | h2
  · exact Or.inl (decide_eq_true (lt_trans (of_decide_eq_true h2) (of_decide_eq_true h1)))
  · rw [Bool.and_eq_true] at h2
    have heq : msKey b = msKey c := of_decide_eq_true h2.1
    have h1q : msKey b < msKey a := of_decide_eq_true h1
    rw [heq] at h1q
    exact Or.inl (decide_eq_true h1q)
  · rw [Bool.and_eq_true] at h1
    have heq : msKey a = msKey b := of_decide_eq_true h1.1
    have h2q : msKey c < msKey b := of_decide_eq_true h2
    rw [← heq] at h2q
    exact Or.inl (decide_eq_true h2q)
  · rw [Bool.and_eq_true] at h1 h2 ⊢
    refine Or.inr ⟨decide_eq_true ?_, vcBefore_trans _ _ _ h1.2 h2.2⟩
    exact (of_decide_eq_true h1.1).trans (of_decide_eq_true h2.1)

/-- Every candidate produced by keyword search carries no relevance key
and some match score. -/
theorem search_by_keywords_shape (corpus : List QRow) (kws : List String)
    (lim : Nat) : ∀ c ∈ search_by_keywords corpus kws lim,
      c.relevance = none ∧ ∃ q, c.match_score = some q := by
  intro c hc
  unfold search_by_keywords at hc
  cases h : kws.isEmpty with
  | true => simp [h] at hc
  | false =>
    simp only [h, Bool.false_eq_true, ite_false] at hc
    have hc2 := List.mem_of_mem_take hc
    have hc3 := (sortOrd_perm kwOrd _).mem_iff.mp hc2
    rcases List.mem_map.mp hc3 with ⟨row, _, rfl⟩
    exact ⟨rfl, kwScore kws row, rfl⟩

/-- A non-empty candidate list still has elements after sorting and
truncation to the top 5. -/
theorem take5_ne_nil {l : List Cand} (h : l.isEmpty = false) (r : Cand → Cand → Bool) :
    (sortOrd r l).take 5 ≠ [] := by
  have hlen : (sortOrd r l).length = l.length := (sortOrd_perm r l).length_eq
  intro hnil
  have hl := congrArg List.length hnil
  simp only [List.length_take, hlen, List.length_nil] at hl
  cases l with
  | nil => simp at h
  | cons a as => simp at hl

/-- Candidates coming out of the keyword-search step of chat carry no
relevance key. -/
theorem keywordResultsOf_relevance_none (corpus : List QRow) (kwr : KwResult) :
    ∀ c ∈ keywordResultsOf corpus kwr, c.relevance = none := by
  intro c hc
  unfold keywordResultsOf at hc
  cases h : (allKeywordsOf kwr).isEmpty with
  | true => simp [h] at hc
  | false =>
    simp only [h, Bool.false_eq_true, ite_false] at hc
    exact (search_by_keywords_shape corpus (allKeywordsOf kwr) 10 c hc).1

/-- Every candidate of the merged list that carries a relevance key is an
embedding candidate whose match_score was set to relevance times 3 at
chat.py line 127. -/
theorem mergedOf_scores (C : Collab) (corpus : List QRow) (kwr : KwResult) :
    ∀ c ∈ mergedOf C corpus kwr, ∀ v, c.relevance = some v →
      c.match_score = some (v * 3) := by
  intro c hc v hv
  unfold mergedOf at hc
  cases hd : doEmbedOf corpus kwr with
  | false =>
    simp only [hd, Bool.false_eq_true, ite_false] at hc
    exact absurd hv (by simp [keywordResultsOf_relevance_none corpus kwr c hc])
  | true =>
    simp only [hd, ite_true] at hc
    unfold mergeResults at hc
    rcases List.mem_append.mp hc with hck | hce
    · exact absurd hv (by simp [keywordResultsOf_relevance_none corpus kwr c hck])
    · rcases List.mem_map.mp hce with ⟨r, _, rfl⟩
      simp only [mkCand, Option.some.injEq] at hv
      simp [mkCand, hv]

/-- Claim C4.  For every AnswerResult returned by chat, the sources list
is non-empty exactly when the mode is database, and a disclaimer is
present exactly when the mode is the generative-knowledge fallback, called
ai_knowledge in the code. -/
theorem claim4_result_invariants (C : Collab) (corpus : List QRow) (message : String)
    (history : List HMsg) (res : ChatResult)
    (h : Except.map Prod.fst (chat C corpus message history) = .ok res) :
    (res.sources ≠ [] ↔ res.source_type = "database") ∧
    (res.disclaimer ≠ none ↔ res.source_type = "ai_knowledge") := by
  rcases hc : chat C corpus message history with e | p
  · rw [hc] at h
    simp [Except.map] at h
  · rw [hc] at h
    simp only [Except.map] at h
    injection h with h
    subst h
    unfold chat at hc
    split at hc
    · injection hc with hc
      subst hc
      simp
    · split at hc
      · injection hc with hc
        subst hc
        simp [fallbackChatResult, standardDisclaimer]
      · split at hc
        · injection hc
        · split at hc
          · injection hc with hc
            subst hc
            simp [fallbackChatResult, standardDisclaimer]
          · split at hc
            · injection hc with hc
              subst hc
              simp [fallbackChatResult, standardDisclaimer]
            · injection hc with hc
              subst hc
              rename_i hmerged _
              refine ⟨iff_of_true ?_ rfl, iff_of_false (by simp) (by simp)⟩
              simp only [mkSources, ne_eq, List.map_eq_nil_iff, sortedResultsOf]
              exact take5_ne_nil (by simpa using hmerged) chatOrd

/-- Claim C3.  On every question-path chat invocation the embedding and
the vector index are used exactly when keyword search produced fewer than
3 candidates, and the embedding call and vector-search call happen
together. -/
theorem claim3_embedding_iff (C : Collab) (corpus : List QRow) (message : String)
    (history : List HMsg) (tr : Trace)
    (hq : C.classify = true)
    (h : Except.map Prod.snd (chat C corpus message history) = .ok tr) :
    (tr.embedCalled = true ↔ tr.kwResults.length < 3) ∧
    tr.vecCalled = tr.embedCalled := by
  rcases hc : chat C corpus message history with e | p
  · rw [hc] at h
    simp [Except.map] at h
  · rw [hc] at h
    simp only [Except.map] at h
    injection h with h
    subst h
    unfold chat at hc
    split at hc
    · rename_i hcond
      rw [hq] at hcond
      simp at hcond
    · split at hc
      · rename_i hcond
        rw [hq] at hcond
        simp at hcond
      · split at hc
        · injection hc
        · split at hc
          · injection hc with hc
            subst hc
            simp [baseTraceOf, doEmbedOf]
          · split at hc
            · injection hc with hc
              subst hc
              simp [baseTraceOf, doEmbedOf]
            · injection hc with hc
              subst hc
              simp [baseTraceOf, doEmbedOf]

/-- Claim C5.  When the grounded path is reached (the composed candidate
list is non-empty), a not-found phrase in the grounded answer makes chat
discard it and return the ai-knowledge fallback with the disclaimer and
no sources, while a clean grounded answer is returned as mode database. -/
theorem claim5_not_found (C : Collab) (corpus : List QRow) (message : String)
    (history : List HMsg) (res : ChatResult) (comp : List Cand)
    (h : Except.map (fun p => (p.1, p.2.composed)) (chat C corpus message history) = .ok (res, comp))
    (hne : comp ≠ []) :
    (sourcesInsufficient C.groundedAnswer = true →
      res.source_type = "ai_knowledge" ∧ res.disclaimer = some standardDisclaimer ∧
      res.sources = [] ∧ res.answer = C.fallbackAnswer) ∧
    (sourcesInsufficient C.groundedAnswer = false →
      res.source_type = "database" ∧ res.answer = C.groundedAnswer ∧
      res.disclaimer = none) := by
  rcases hc : chat C corpus message history with e | p
  · rw [hc] at h
    simp [Except.map] at h
  · rw [hc] at h
    simp only [Except.map] at h
    injection h with h
    rw [Prod.mk.injEq] at h
    obtain ⟨hres, hcomp⟩ := h
    subst hres
    unfold chat at hc
    split at hc
    · injection hc with hc
      subst hc
      simp at hcomp
      exact absurd hcomp.symm hne
    · split at hc
      · injection hc with hc
        subst hc
        simp at hcomp
        exact absurd hcomp.symm hne
      · split at hc
        · injection hc
        · split at hc
          · injection hc with hc
            subst hc
            simp [baseTraceOf] at hcomp
            exact absurd hcomp hne
          · split at hc
            · rename_i hins
              injection hc with hc
              subst hc
              refine ⟨fun _ => by simp [fallbackChatResult], fun hfalse => ?_⟩
              rw [hins] at hfalse
              cases hfalse
            · rename_i hins
              injection hc with hc
              subst hc
              rw [Bool.not_eq_true] at hins
              refine ⟨fun htrue => ?_, fun _ => by simp⟩
              rw [hins] at htrue
              cases htrue

/-- The list chat passes to grounded composition is sorted non-increasing
by the code sort key, has at most 5 elements, and every vector-origin
candidate in it carries a match_score equal to its relevance times 3. -/
theorem sortedResultsOf_props (C : Collab) (corpus : List QRow) (kwr : KwResult) :
    (sortedResultsOf C corpus kwr).Pairwise (fun a b => codeKey b ≤ codeKey a) ∧
    (sortedResultsOf C corpus kwr).length ≤ 5 ∧
    ∀ c ∈ sortedResultsOf C corpus kwr, ∀ v, c.relevance = some v →
      c.match_score = some (v * 3) := by
  refine ⟨?_, ?_, ?_⟩
  · have hp := pairwise_sortOrd chatOrd chatOrd_total chatOrd_trans (mergedOf C corpus kwr)
    have hpt := hp.sublist (List.take_sublist 5 _)
    exact hpt.imp (fun hab => of_decide_eq_true hab)
  · unfold sortedResultsOf
    exact List.length_take_le 5 _
  · intro c hcmem v hv
    have h1 : c ∈ sortOrd chatOrd (mergedOf C corpus kwr) := List.mem_of_mem_take hcmem
    have h2 : c ∈ mergedOf C corpus kwr := (sortOrd_perm chatOrd _).mem_iff.mp h1
    exact mergedOf_scores C corpus kwr c h2 v hv

/-- Claim C1, amended.  The candidate list passed to composition is sorted
non-increasing by the sort key the code actually uses, match_score plus
relevance times 3, and has at most 5 elements; vector-merged candidates
carry match_score equal to relevance times 3, so their effective composite
is relevance times 6 rather than the relevance times 3 of the
specification. -/
theorem claim1_amended_composite (C : Collab) (corpus : List QRow) (message : String)
    (history : List HMsg) (comp : List Cand)
    (h : Except.map (fun p => p.2.composed) (chat C corpus message history) = .ok comp) :
    comp.Pairwise (fun a b => codeKey b ≤ codeKey a) ∧ comp.length ≤ 5 ∧
    ∀ c ∈ comp, ∀ v, c.relevance = some v → c.match_score = some (v * 3) := by
  rcases hc : chat C corpus message history with e | p
  · rw [hc] at h
    simp [Except.map] at h
  · rw [hc] at h
    simp only [Except.map] at h
    injection h with h
    subst h
    unfold chat at hc
    split at hc
    · injection hc with hc
      subst hc
      simp [emptyTrace]
    · split at hc
      · injection hc with hc
        subst hc
        simp [emptyTrace]
      · split at hc
        · injection hc
        · split at hc
          · injection hc with hc
            subst hc
            simp [baseTraceOf]
          · split at hc
            · injection hc with hc
              subst hc
              exact sortedResultsOf_props C corpus _
            · injection hc with hc
              subst hc
              exact sortedResultsOf_props C corpus _

/-- mkCand keeps every field of the embedding row, so it is injective. -/
theorem mkCand_inj {r s : ERow} (h : mkCand r = mkCand s) : r = s := by
  cases r
  cases s
  simp only [mkCand, Cand.mk.injEq, Option.some.injEq] at h
  obtain ⟨h1, h2, h3, h4, h5, h6, -, -, h7⟩ := h
  simp_all

/-- Claim C2.  During vector augmentation an embedding candidate enters
the merged list exactly when its id is absent from the keyword results and
its relevance is at least 0.55 (the boundary value included), and an id
already present among the keyword results occurs exactly once in the
merged list, as its original keyword candidate with its keyword score. -/
theorem claim2_merge_dedup (kwRes : List Cand) (embRes : List ERow)
    (hk : (kwRes.map Cand.id).Nodup)
    (hkr : ∀ c ∈ kwRes, c.relevance = none) :
    (∀ r ∈ embRes,
      (mkCand r ∈ mergeResults kwRes embRes ↔
        (r.id ∉ kwRes.map Cand.id ∧ (0.55 : ℚ) ≤ r.relevance))) ∧
    (∀ i ∈ kwRes.map Cand.id,
      (mergeResults kwRes embRes).filter (fun c => c.id == i) =
        kwRes.filter (fun c => c.id == i) ∧
      (mergeResults kwRes embRes).countP (fun c => c.id == i) = 1) := by
  constructor
  · intro r hr
    unfold mergeResults
    rw [List.mem_append]
    constructor
    · rintro (hin | hin)
      · exact absurd (hkr _ hin) (by simp [mkCand])
      · rcases List.mem_map.mp hin with ⟨s, hs, heq⟩
        have hrs : s = r := mkCand_inj heq
        subst hrs
        rcases List.mem_filter.mp hs with ⟨-, hcond⟩
        rw [Bool.and_eq_true] at hcond
        refine ⟨?_, of_decide_eq_true hcond.2⟩
        intro hmem
        have hcontains : (kwRes.map Cand.id).contains s.id = true := List.elem_iff.mpr hmem
        rw [hcontains] at hcond
        simp at hcond
    · rintro ⟨hnot, hrel⟩
      right
      refine List.mem_map_of_mem mkCand (List.mem_filter.mpr ⟨hr, ?_⟩)
      rw [Bool.and_eq_true]
      refine ⟨?_, decide_eq_true hrel⟩
      rw [Bool.not_eq_true']
      rw [← Bool.not_eq_true]
      intro hcon
      exact hnot (List.elem_iff.mp hcon)
  · intro i hi
    have hadded : ((embRes.filter (fun r =>
        !(kwRes.map Cand.id).contains r.id && decide (r.relevance ≥ (0.55 : ℚ)))).map mkCand).filter
          (fun c => c.id == i) = [] := by
      rw [List.filter_eq_nil_iff]
      intro c hc
      rcases List.mem_map.mp hc with ⟨s, hs, rfl⟩
      rcases List.mem_filter.mp hs with ⟨-, hcond⟩
      rw [Bool.and_eq_true] at hcond
      have hne : s.id ≠ i := by
        intro hcon
        have hcontains : (kwRes.map Cand.id).contains s.id = true :=
          List.elem_iff.mpr (hcon ▸ hi)
        rw [hcontains] at hcond
        simp at hcond
      simp [mkCand, hne]
    refine ⟨?_, ?_⟩
    · unfold mergeResults
      rw [List.filter_append, hadded, List.append_nil]
    · unfold mergeResults
      rw [List.countP_append]
      have h2 : ((embRes.filter (fun r =>
          !(kwRes.map Cand.id).contains r.id && decide (r.relevance ≥ (0.55 : ℚ)))).map mkCand).countP
            (fun c => c.id == i) = 0 := by
        rw [List.countP_eq_length_filter, hadded]
        rfl
      rw [h2, Nat.add_zero]
      have h1 := List.count_eq_one_of_mem hk hi
      rw [List.count_eq_countP, List.countP_map] at h1
      exact h1

/-- A list whose isEmpty test is false is not the empty list. -/
theorem ne_nil_of_isEmpty_false {α : Type} {l : List α} (h : l.isEmpty = false) :
    l ≠ [] := by
  cases l with
  | nil => simp at h
  | cons a as => simp

/-- Claim C6, amended.  A message classified conversational while the
history is non-empty bypasses retrieval entirely (no keyword search, no
embedding, no vector search), and chat returns the generative answer built
with the history as context, mode ai_knowledge, no sources, and the
standard disclaimer set; the source, unlike the specification table,
attaches the disclaimer on this path (chat.py line 86). -/
theorem claim6_amended (C : Collab) (corpus : List QRow) (message : String)
    (history : List HMsg) (hq : C.classify = false) (hh : history ≠ []) :
    chat C corpus message history = .ok (fallbackChatResult C.fallbackAnswer,
      { emptyTrace with
          fallbackContents := some (generate_fallback_contents message history) }) := by
  cases history with
  | nil => exact absurd rfl hh
  | cons m hist =>
    unfold chat
    simp [hq]

/-- Claim C7, amended.  Keyword search output is ordered by match score
descending, then view_count descending with NULLs last; the SQL names no
id tiebreak, so rows tied on both keys keep their corpus order in this
model and their order is unspecified in the source. -/
theorem claim7_amended_order (corpus : List QRow) (keywords : List String) (limit : Nat) :
    (search_by_keywords corpus keywords limit).Pairwise (fun a b => kwOrd a b = true) := by
  unfold search_by_keywords
  cases h : keywords.isEmpty with
  | true => simp
  | false =>
    simp only [h, Bool.false_eq_true, ite_false]
    exact (pairwise_sortOrd kwOrd kwOrd_total kwOrd_trans _).sublist (List.take_sublist _ _)

/-- Claim C8, amended.  When the extraction response fails JSON parsing,
extraction falls back to the original message as the sole keyword, and
keyword search is only ever invoked with a non-empty keyword list; but
structured output omitting the keyword fields yields an empty keyword
list, in which case keyword search is skipped while vector retrieval
still proceeds (see the counterexample). -/
theorem claim8_amended :
    (∀ (jp : String → Option JsonDict) (q resp txt : String),
      preprocess_response resp = .ok txt → jp txt = none →
        extract_search_keywords jp q resp = .ok ⟨[q], [], q⟩) ∧
    (∀ (C : Collab) (corpus : List QRow) (message : String) (history : List HMsg)
      (res : ChatResult) (tr : Trace),
        chat C corpus message history = .ok (res, tr) →
          tr.kwCalled = true → tr.keywordsUsed ≠ []) := by
  constructor
  · intro jp q resp txt hpre hjp
    unfold extract_search_keywords
    rw [hpre]
    simp [hjp]
  · intro C corpus message history res tr hc hkw
    unfold chat at hc
    split at hc
    · injection hc with hc
      rw [Prod.mk.injEq] at hc
      rw [← hc.2] at hkw
      simp [emptyTrace] at hkw
    · split at hc
      · injection hc with hc
        rw [Prod.mk.injEq] at hc
        rw [← hc.2] at hkw
        simp [emptyTrace] at hkw
      · split at hc
        · injection hc
        · split at hc
          · injection hc with hc
            rw [Prod.mk.injEq] at hc
            rw [← hc.2] at hkw ⊢
            simp only [baseTraceOf] at hkw ⊢
            exact ne_nil_of_isEmpty_false (by simpa using hkw)
          · split at hc
            · injection hc with hc
              rw [Prod.mk.injEq] at hc
              rw [← hc.2] at hkw ⊢
              simp only [baseTraceOf] at hkw ⊢
              exact ne_nil_of_isEmpty_false (by simpa using hkw)
            · injection hc with hc
              rw [Prod.mk.injEq] at hc
              rw [← hc.2] at hkw ⊢
              simp only [baseTraceOf] at hkw ⊢
              exact ne_nil_of_isEmpty_false (by simpa using hkw)

/-- Claim C9.  A model response consisting of a bare code fence with no
newline makes extract_search_keywords raise IndexError to its caller:
the fence preprocessing indexes element 1 of a one-element split and the
except clause catches only JSONDecodeError and KeyError, contradicting
the never-raises contract of the specification. -/
theorem claim9_fence_raises (jp : String → Option JsonDict) (q : String) :
    extract_search_keywords jp q fence = .error .indexError := rfl

/-- Claim C10.  In the contents lists built for the generative model,
each history entry whose role is exactly the string user maps to the user
role and every other role string maps to the model role; the mapping is
total, so no role value is validated or causes an error.  chat passes
history entries through unchanged (chat.py lines 80 and 132-136). -/
theorem claim10_role_mapping (q : String) (ctx : List Cand) (hist : List HMsg) :
    (generate_answer_contents q ctx hist).map GContent.role =
      hist.map (fun m => if m.role = "user" then GRole.user else GRole.model) ++ [GRole.user] ∧
    (generate_fallback_contents q hist).map GContent.role =
      hist.map (fun m => if m.role = "user" then GRole.user else GRole.model) ++ [GRole.user] := by
  constructor <;>
    simp [generate_answer_contents, generate_fallback_contents, buildHistoryContents]

/-! Concrete fixtures used by witnesses and counterexamples.  All are
closed values, so every claim below is exercised on an input the kernel
can evaluate. -/

/-- A json.loads oracle returning one primary keyword, as from a
well-formed model response. -/
def jpABC : String → Option JsonDict := fun _ => some ⟨some ["abc"], some [], some "q"⟩
/-- A json.loads oracle that always fails: every response is unparseable. -/
def jpNone : String → Option JsonDict := fun _ => none
/-- A json.loads oracle for a valid JSON object that omits both keyword
fields, as json.loads would produce from an object holding only the
rewritten query. -/
def jpEmpty : String → Option JsonDict := fun _ => some ⟨none, none, some "q"⟩
def rowA : QRow := ⟨1, "xx abc yy", "", "zz", "", "", some 5, true⟩
def corpusA : List QRow := [rowA]
def candA : Cand := ⟨1, "xx abc yy", "", "zz", "", "", some 5, some 2, none⟩
def erowB : ERow := ⟨2, "t2", "", "a2", "", "", 11/20⟩
def CA : Collab := ⟨true, jpABC, "resp", "conv", "fb", "yaxshi", []⟩
def CB : Collab := ⟨true, jpABC, "resp", "conv", "fb", "yaxshi", [erowB]⟩
def C5w : Collab := ⟨true, jpABC, "resp", "conv", "fb", "topilmadi", []⟩
def Cconv : Collab := ⟨false, jpNone, "", "conv", "fb", "ga", []⟩
def CX : Collab := ⟨true, jpNone, "y", "conv", "fb", "ga", []⟩
def C8c : Collab := ⟨true, jpEmpty, "resp", "conv", "fb", "ga", []⟩
def histU : List HMsg := [⟨"user", "salom"⟩]
def resA : ChatResult := ⟨"yaxshi", [⟨1, "xx abc yy", 33/100⟩], "database", none⟩
def resFB : ChatResult := fallbackChatResult "fb"
def trX : Trace :=
  ⟨true, true, true, ["m"], [], [], none, some (generate_fallback_contents "m" [])⟩
def row71 : QRow := ⟨1, "abc", "", "", "", "", some 5, true⟩
def row72 : QRow := ⟨2, "abc", "", "", "", "", some 5, true⟩
def corpus7 : List QRow := [row71, row72]
def kwsW : List Cand := [⟨1, "t1", "", "a1", "", "", none, some 4, none⟩]
def embsW : List ERow :=
  [⟨2, "t2", "", "a2", "", "", 9/10⟩, ⟨3, "t3", "", "a3", "", "", 11/20⟩,
   ⟨4, "t4", "", "a4", "", "", 27/50⟩, ⟨1, "t1", "", "a1", "", "", 9/10⟩]

/-- The composite score of the specification: keyword_score plus
vector_score times 3, a missing component counting 0.  In the merged list
a candidate is vector-origin exactly when it carries a relevance key, and
then its keyword score is missing. -/
def specComposite (c : Cand) : ℚ :=
  (if c.relevance.isSome then 0 else c.match_score.getD 0) + c.relevance.getD 0 * 3

/-- The ordering claim C7 asserts for keyword search: match score
descending, then view_count descending with NULLs last, then id
descending. -/
def specKwOrd (a b : Cand) : Prop :=
  msKey b < msKey a ∨ (msKey a = msKey b ∧
    ((vcBefore a.view_count b.view_count = true ∧ vcBefore b.view_count a.view_count = false) ∨
     (vcBefore a.view_count b.view_count = true ∧ vcBefore b.view_count a.view_count = true ∧
      b.id ≤ a.id)))

unseal Rat.add Rat.mul Rat.inv Rat.ofScientific Rat.sub in
/-- Claim C1, counterexample.  On this input the list passed to
composition has specification composite scores 33/20 then 2, so it is not
sorted non-increasing by keyword_score plus vector_score times 3: the code
sorts the vector candidate first because it doubles its vector component
(match_score was set to relevance times 3 and the sort key adds relevance
times 3 again). -/
theorem claim1_counterexample :
    Except.map (fun p => p.2.composed.map specComposite) (chat CB corpusA "m" []) =
      .ok [33/20, 2] ∧
    Except.map (fun p =>
        decide (p.2.composed.Pairwise (fun a b => specComposite b ≤ specComposite a)))
      (chat CB corpusA "m" []) = .ok false := by
  constructor
  · rfl
  · rfl

unseal Rat.add Rat.mul Rat.inv Rat.ofScientific Rat.sub in
/-- Witness for the amended claim C1 at a concrete grounded run. -/
theorem claim1_witness :
    ([candA].Pairwise (fun a b => codeKey b ≤ codeKey a)) ∧
    ([candA] : List Cand).length ≤ 5 ∧
    (∀ c ∈ [candA], ∀ v, c.relevance = some v → c.match_score = some (v * 3)) :=
  claim1_amended_composite CA corpusA "m" [] [candA] rfl

unseal Rat.add Rat.mul Rat.inv Rat.ofScientific Rat.sub in
/-- Witness for claim C2 at concrete lists: relevance 0.9 and the exact
boundary 0.55 are admitted, 0.54 is rejected, and the id present in both
keyword and vector results stays a single keyword-origin candidate. -/
theorem claim2_witness :
    ((kwsW.map Cand.id).Nodup ∧ (∀ c ∈ kwsW, c.relevance = none)) ∧
    ((∀ r ∈ embsW, (mkCand r ∈ mergeResults kwsW embsW ↔
        (r.id ∉ kwsW.map Cand.id ∧ (0.55 : ℚ) ≤ r.relevance))) ∧
     (∀ i ∈ kwsW.map Cand.id,
        (mergeResults kwsW embsW).filter (fun c => c.id == i) =
          kwsW.filter (fun c => c.id == i) ∧
        (mergeResults kwsW embsW).countP (fun c => c.id == i) = 1)) :=
  ⟨⟨by decide, by decide⟩, claim2_merge_dedup kwsW embsW (by decide) (by decide)⟩

unseal Rat.add Rat.mul Rat.inv Rat.ofScientific Rat.sub in
/-- Witness for claim C3 at a concrete run that triggers vector search. -/
theorem claim3_witness :
    CX.classify = true ∧
    ((trX.embedCalled = true ↔ trX.kwResults.length < 3) ∧
     trX.vecCalled = trX.embedCalled) :=
  ⟨rfl, claim3_embedding_iff CX [] "m" [] trX rfl rfl⟩

unseal Rat.add Rat.mul Rat.inv Rat.ofScientific Rat.sub in
/-- Witness for claim C4 at a concrete database-mode run. -/
theorem claim4_witness :
    (resA.sources ≠ [] ↔ resA.source_type = "database") ∧
    (resA.disclaimer ≠ none ↔ resA.source_type = "ai_knowledge") :=
  claim4_result_invariants CA corpusA "m" [] resA rfl

unseal Rat.add Rat.mul Rat.inv Rat.ofScientific Rat.sub in
/-- Witness for claim C5 at a concrete run whose grounded answer contains
the phrase topilmadi. -/
theorem claim5_witness :
    ([candA] ≠ ([] : List Cand)) ∧
    ((sourcesInsufficient C5w.groundedAnswer = true →
        resFB.source_type = "ai_knowledge" ∧ resFB.disclaimer = some standardDisclaimer ∧
        resFB.sources = [] ∧ resFB.answer = C5w.fallbackAnswer) ∧
     (sourcesInsufficient C5w.groundedAnswer = false →
        resFB.source_type = "database" ∧ resFB.answer = C5w.groundedAnswer ∧
        resFB.disclaimer = none)) :=
  ⟨by decide, claim5_not_found C5w corpusA "m" [] resFB [candA] rfl (by decide)⟩

unseal Rat.add Rat.mul Rat.inv Rat.ofScientific Rat.sub in
/-- Claim C6, counterexample.  A conversational message with non-empty
history comes back with the standard disclaimer set, refuting the
no-disclaimer part of the claim. -/
theorem claim6_counterexample :
    Except.map (fun p => p.1.disclaimer) (chat Cconv [] "rahmat" histU) =
      .ok (some standardDisclaimer) ∧
    some standardDisclaimer ≠ (none : Option String) :=
  ⟨rfl, by simp⟩

/-- Witness for the amended claim C6 at a concrete run. -/
theorem claim6_witness :
    chat Cconv [] "rahmat" histU = .ok (fallbackChatResult Cconv.fallbackAnswer,
      { emptyTrace with
          fallbackContents := some (generate_fallback_contents "rahmat" histU) }) :=
  claim6_amended Cconv [] "rahmat" histU rfl (by decide)

/-- Decidability of the claimed keyword ordering, for concrete checks. -/
instance specKwOrd_decidable (a b : Cand) : Decidable (specKwOrd a b) := by
  unfold specKwOrd
  infer_instance

unseal Rat.add Rat.mul Rat.inv Rat.ofScientific Rat.sub in
/-- Claim C7, counterexample.  Two corpus rows tie on match score and
view count; the output keeps them as ids 1 then 2, violating the claimed
id-descending tiebreak, which the SQL ORDER BY does not contain. -/
theorem claim7_counterexample :
    (search_by_keywords corpus7 ["abc"] 10).map Cand.id = [1, 2] ∧
    ¬ (search_by_keywords corpus7 ["abc"] 10).Pairwise specKwOrd := by
  constructor
  · rfl
  · decide

unseal Rat.add Rat.mul Rat.inv Rat.ofScientific Rat.sub in
/-- Claim C8, counterexample.  A parsed response omitting the keyword
fields yields an empty keyword list, and the chat run then attempts
retrieval anyway: keyword search is skipped but vector search runs. -/
theorem claim8_counterexample :
    extract_search_keywords jpEmpty "msg" "resp" = .ok ⟨[], [], "q"⟩ ∧
    Except.map (fun p => (p.2.keywordsUsed, p.2.kwCalled, p.2.vecCalled))
      (chat C8c [] "msg" []) = .ok ([], false, true) :=
  ⟨rfl, rfl⟩

/-- Witness for the amended claim C8 at concrete runs. -/
theorem claim8_witness :
    extract_search_keywords jpNone "m" "x" = .ok ⟨["m"], [], "m"⟩ ∧
    trX.keywordsUsed ≠ [] :=
  ⟨claim8_amended.1 jpNone "m" "x" "x" rfl rfl,
   claim8_amended.2 CX [] "m" [] resFB trX rfl rfl⟩
